import Mathlib

/-!
Shallow embedding of `Project 1 merkle tree/prover.py`.

Modelling conventions:
* Byte strings (`bytes`) are `List Nat` (each entry one byte value).
* The external library function `hashlib.sha256` is not repository code; it is
  modelled as an explicit parameter `sha256 : List Nat → List Nat`.  Incremental
  hashing (`update` called several times) equals hashing the concatenation, so
  `hash_leaf` and `hash_internal_node` apply `sha256` to the concatenation of
  the domain tag and the data.
* Python exceptions are modelled with `Except PyErr`: `math.log(0, 2)` raises
  `ValueError`, a failed `assert` raises `AssertionError`, and list indexing
  out of range raises `IndexError`.
* `math.ceil(math.log(n, 2))` is modelled as `Nat.clog 2 n` (the exact
  ceiling of the base-2 logarithm).  For every `n` with `1 ≤ n` that passes the
  `MAXHEIGHT` check (`n ≤ 2 ^ 19`), the double-precision computation in the
  source agrees with the exact value, so this is faithful on the whole domain
  the program accepts.
* Python list indexing `l[i]` accepts negative indices (`l[i]` is `l[len l + i]`
  when `-len l ≤ i < 0`); `pyGet` reproduces this.  Python `//` and `%` on
  integers are floor division and the corresponding remainder, which for the
  positive divisor `2` coincide with `Int` division `/` (`Int.ediv`) and
  `%` (`Int.emod`).
* Python slices `l[::2]` / `l[1::2]` are `evens l` / `odds l`, and
  `map(f, xs, ys)` truncates to the shorter list, i.e. `List.zipWith`.
-/

/-- Python exceptions that `gen_merkle_proof` can raise. -/
inductive PyErr : Type where
  | valueError : PyErr      -- math domain error from `math.log(0, 2)`
  | assertionError : PyErr  -- `assert height < MAXHEIGHT, "Too many leaves."`
  | indexError : PyErr      -- list index out of range
deriving DecidableEq

/-- `MAXHEIGHT = 20`, the maximal Merkle-tree height in `prover.py`. -/
def MAXHEIGHT : Nat := 20

/-- The bytes of the domain tag `b"leaf:"`. -/
def leafTag : List Nat := [108, 101, 97, 102, 58]

/-- The bytes of the domain tag `b"node:"`. -/
def nodeTag : List Nat := [110, 111, 100, 101, 58]

/-- `hash_leaf` from `prover.py`: digest of `b"leaf:" || leaf`. -/
def hash_leaf (sha256 : List Nat → List Nat) (leaf : List Nat) : List Nat :=
  sha256 (leafTag ++ leaf)

/-- `hash_internal_node` from `prover.py`: digest of `b"node:" || left || right`. -/
def hash_internal_node (sha256 : List Nat → List Nat) (left right : List Nat) : List Nat :=
  sha256 (nodeTag ++ left ++ right)

/-- Python list indexing `l[i]`: a negative index counts from the end, an index
outside `[-len l, len l)` raises `IndexError`. -/
def pyGet {α : Type} (l : List α) (i : Int) : Except PyErr α :=
  let j : Int := if i < 0 then i + l.length else i
  if 0 ≤ j then
    match l[j.toNat]? with
    | some a => Except.ok a
    | none => Except.error PyErr.indexError
  else
    Except.error PyErr.indexError

/-- The Python slice `l[::2]`: elements at even indices. -/
def evens {α : Type} : List α → List α
  | [] => []
  | [a] => [a]
  | a :: _ :: rest => a :: evens rest

/-- The Python slice `l[1::2]`: elements at odd indices. -/
def odds {α : Type} : List α → List α
  | [] => []
  | [_] => []
  | _ :: b :: rest => b :: odds rest

/-- One fold step of the level loop:
`list(map(hash_internal_node, temp_list[::2], temp_list[1::2]))`. -/
def combineLevel (sha256 : List Nat → List Nat) (l : List (List Nat)) : List (List Nat) :=
  List.zipWith (hash_internal_node sha256) (evens l) (odds l)

/-- The `for level in range(height)` loop of `gen_merkle_proof`, with the loop
counter as fuel.  Each iteration computes the sibling position (`level_pos + 1`
if `level_pos` is even else `level_pos - 1`), reads the sibling hash (Python
indexing, may raise `IndexError`), folds the level pairwise, and floor-halves
`level_pos`.  The returned list is `path`, in append (bottom-to-top) order. -/
def proofLoop (sha256 : List Nat → List Nat) :
    Nat → Int → List (List Nat) → Except PyErr (List (List Nat))
  | 0, _, _ => Except.ok []
  | n + 1, level_pos, temp_list =>
    let sibling_pos : Int :=
      if level_pos % 2 = 0 then level_pos + 1 else level_pos - 1
    match pyGet temp_list sibling_pos with
    | Except.error e => Except.error e
    | Except.ok sib =>
      match proofLoop sha256 n (level_pos / 2) (combineLevel sha256 temp_list) with
      | Except.error e => Except.error e
      | Except.ok rest => Except.ok (sib :: rest)

/-- The hashed-and-padded leaf level: `state = list(map(hash_leaf, leaves))`
followed by `state += [b"\x00"] * padlen` with `padlen = 2 ** height - len(leaves)`.
Note the padding entry is the single byte string `b"\x00"`, i.e. `[0]`. -/
def paddedState (sha256 : List Nat → List Nat) (leaves : List (List Nat)) :
    List (List Nat) :=
  leaves.map (hash_leaf sha256) ++
    List.replicate (2 ^ Nat.clog 2 leaves.length - leaves.length) [0]

/-- `gen_merkle_proof(leaves, pos)` from `prover.py`.  With `n = len(leaves)`:
`math.log(0, 2)` raises `ValueError` when `n = 0`; otherwise
`height = ceil(log2 n)` and `assert height < MAXHEIGHT` raises
`AssertionError` when `MAXHEIGHT ≤ height`; otherwise the leaves are hashed,
padded to length `2 ^ height` with `b"\x00"` entries, and the level loop runs. -/
def gen_merkle_proof (sha256 : List Nat → List Nat) (leaves : List (List Nat))
    (pos : Int) : Except PyErr (List (List Nat)) :=
  if leaves.length = 0 then Except.error PyErr.valueError
  else if MAXHEIGHT ≤ Nat.clog 2 leaves.length then Except.error PyErr.assertionError
  else proofLoop sha256 (Nat.clog 2 leaves.length) pos (paddedState sha256 leaves)

/-- Sibling index on natural positions: `p + 1` if `p` is even, else `p - 1`. -/
def sibIndex (p : Nat) : Nat := if p % 2 = 0 then p + 1 else p - 1

/-- The `i`-th tree level above a starting level `s`: `levelAt sha256 s 0 = s`
and each further level is the pairwise fold of the previous one. -/
def levelAt (sha256 : List Nat → List Nat) (s : List (List Nat)) : Nat → List (List Nat)
  | 0 => s
  | i + 1 => combineLevel sha256 (levelAt sha256 s i)

/-- A concrete injective stand-in digest function, used to instantiate the
`sha256` parameter in concrete evaluations. -/
def hId : List Nat → List Nat := fun l => l

/-- A concrete digest function with 32-byte output, mirroring the output
length of SHA-256. -/
def h32 : List Nat → List Nat := fun l => List.replicate 32 (l.length % 256)

-- Concrete values of `Nat.clog 2`, needed because `Nat.clog` is defined by
-- well-founded recursion and does not reduce by `decide`.
lemma clog2_one : Nat.clog 2 1 = 0 := Nat.clog_one_right 2

lemma clog2_two : Nat.clog 2 2 = 1 :=
  le_antisymm ((Nat.le_pow_iff_clog_le one_lt_two).1 (by norm_num))
    ((Nat.pow_lt_iff_lt_clog one_lt_two).1 (by norm_num))

lemma clog2_three : Nat.clog 2 3 = 2 :=
  le_antisymm ((Nat.le_pow_iff_clog_le one_lt_two).1 (by norm_num))
    ((Nat.pow_lt_iff_lt_clog one_lt_two).1 (by norm_num))

lemma clog2_four : Nat.clog 2 4 = 2 :=
  le_antisymm ((Nat.le_pow_iff_clog_le one_lt_two).1 (by norm_num))
    ((Nat.pow_lt_iff_lt_clog one_lt_two).1 (by norm_num))

lemma clog2_big : MAXHEIGHT ≤ Nat.clog 2 524289 :=
  (Nat.pow_lt_iff_lt_clog one_lt_two).1 (by norm_num)

lemma pyGet_ofNat {α : Type} (l : List α) (j : Nat) (hj : j < l.length) :
    pyGet l (j : Int) = Except.ok (l.get ⟨j, hj⟩) := by
  simp only [pyGet]
  rw [if_neg (by omega : ¬ ((j : Int) < 0)), if_pos (by omega : (0 : Int) ≤ (j : Int))]
  rw [show ((j : Int)).toNat = j from by omega, List.getElem?_eq_getElem hj]
  simp

lemma pyGet_ge {α : Type} (l : List α) (i : Int) (hi : (l.length : Int) ≤ i) :
    pyGet l i = Except.error PyErr.indexError := by
  simp only [pyGet]
  rw [if_neg (by omega : ¬ (i < 0)), if_pos (by omega : (0 : Int) ≤ i)]
  rw [List.getElem?_eq_none (by omega : l.length ≤ i.toNat)]

lemma evens_length {α : Type} : ∀ l : List α, (evens l).length = (l.length + 1) / 2
  | [] => by simp [evens]
  | [_] => by simp [evens]
  | _ :: _ :: rest => by
    simp only [evens, List.length_cons, evens_length rest]
    omega

lemma odds_length {α : Type} : ∀ l : List α, (odds l).length = l.length / 2
  | [] => by simp [odds]
  | [_] => by simp [odds]
  | _ :: _ :: rest => by
    simp only [odds, List.length_cons, odds_length rest]
    omega

lemma evens_getElem? {α : Type} : ∀ (l : List α) (k : Nat), (evens l)[k]? = l[2 * k]?
  | [], k => by simp [evens]
  | [a], k => by
    cases k with
    | zero => simp [evens]
    | succ k =>
      rw [show evens [a] = [a] from rfl]
      rw [List.getElem?_eq_none (by simp only [List.length_cons, List.length_nil]; omega),
        List.getElem?_eq_none (by simp only [List.length_cons, List.length_nil]; omega)]
  | a :: b :: rest, k => by
    cases k with
    | zero => simp [evens]
    | succ k =>
      rw [show evens (a :: b :: rest) = a :: evens rest from rfl,
        List.getElem?_cons_succ, evens_getElem? rest k,
        show 2 * (k + 1) = 2 * k + 1 + 1 from by omega,
        List.getElem?_cons_succ, List.getElem?_cons_succ]

lemma odds_getElem? {α : Type} : ∀ (l : List α) (k : Nat), (odds l)[k]? = l[2 * k + 1]?
  | [], k => by simp [odds]
  | [a], k => by
    rw [show odds [a] = ([] : List α) from rfl]
    rw [List.getElem?_eq_none (by simp only [List.length_cons, List.length_nil]; omega),
      List.getElem?_eq_none (by simp only [List.length_cons, List.length_nil]; omega)]
  | a :: b :: rest, k => by
    cases k with
    | zero => simp [odds]
    | succ k =>
      rw [show odds (a :: b :: rest) = b :: odds rest from rfl,
        List.getElem?_cons_succ, odds_getElem? rest k,
        show 2 * (k + 1) + 1 = 2 * k + 1 + 1 + 1 from by omega,
        List.getElem?_cons_succ, List.getElem?_cons_succ]

lemma combineLevel_length (sha256 : List Nat → List Nat) (l : List (List Nat)) :
    (combineLevel sha256 l).length = l.length / 2 := by
  simp only [combineLevel, List.length_zipWith, evens_length, odds_length]
  omega

lemma levelAt_shift (sha256 : List Nat → List Nat) (s : List (List Nat)) :
    ∀ i, levelAt sha256 (combineLevel sha256 s) i = levelAt sha256 s (i + 1)
  | 0 => rfl
  | i + 1 => by
    simp only [levelAt, levelAt_shift sha256 s i]

lemma proofLoop_spec (sha256 : List Nat → List Nat) :
    ∀ (k : Nat) (p : Nat) (tl : List (List Nat)),
      tl.length = 2 ^ k → p < 2 ^ k →
      ∃ path, proofLoop sha256 k (p : Int) tl = Except.ok path ∧
        path.length = k ∧
        ∀ i, i < k → path[i]? = (levelAt sha256 tl i)[sibIndex (p / 2 ^ i)]?
  | 0, p, tl, hlen, hp => ⟨[], rfl, rfl, fun i hi => absurd hi (by omega)⟩
  | k + 1, p, tl, hlen, hp => by
    have h2 : (2 : Nat) ^ (k + 1) = 2 * 2 ^ k := by ring
    have hsib : sibIndex p < tl.length := by
      unfold sibIndex
      split <;> omega
    have hs : (if (p : Int) % 2 = 0 then (p : Int) + 1 else (p : Int) - 1)
        = ((sibIndex p : Nat) : Int) := by
      unfold sibIndex
      by_cases hpe : p % 2 = 0
      · rw [if_pos (by omega), if_pos hpe]
        omega
      · rw [if_neg (by omega), if_neg hpe]
        omega
    have hdiv : (p : Int) / 2 = ((p / 2 : Nat) : Int) := by omega
    obtain ⟨rest, hrest, hrlen, hrent⟩ :=
      proofLoop_spec sha256 k (p / 2) (combineLevel sha256 tl)
        (by rw [combineLevel_length, hlen, h2]; omega)
        (by omega)
    refine ⟨tl.get ⟨sibIndex p, hsib⟩ :: rest, ?_, by simp [hrlen], ?_⟩
    · simp only [proofLoop]
      rw [hs, pyGet_ofNat tl (sibIndex p) hsib, hdiv, hrest]
    · intro i hi
      cases i with
      | zero =>
        simp [levelAt, hsib, List.getElem?_eq_getElem]
      | succ i =>
        rw [List.getElem?_cons_succ, hrent i (by omega), levelAt_shift,
          Nat.div_div_eq_div_mul, ← pow_succ']

lemma gen_spec (sha256 : List Nat → List Nat) (leaves : List (List Nat)) (p : Nat)
    (hne : leaves.length ≠ 0) (hh : Nat.clog 2 leaves.length < MAXHEIGHT)
    (hp : p < 2 ^ Nat.clog 2 leaves.length) :
    ∃ path, gen_merkle_proof sha256 leaves (p : Int) = Except.ok path ∧
      path.length = Nat.clog 2 leaves.length ∧
      ∀ i, i < Nat.clog 2 leaves.length →
        path[i]? = (levelAt sha256 (paddedState sha256 leaves) i)[sibIndex (p / 2 ^ i)]? := by
  have hlen : (paddedState sha256 leaves).length = 2 ^ Nat.clog 2 leaves.length := by
    have := Nat.le_pow_clog one_lt_two leaves.length
    simp only [paddedState, List.length_append, List.length_map, List.length_replicate]
    omega
  obtain ⟨path, h1, h2, h3⟩ := proofLoop_spec sha256 (Nat.clog 2 leaves.length) p
      (paddedState sha256 leaves) hlen hp
  refine ⟨path, ?_, h2, h3⟩
  rw [gen_merkle_proof, if_neg hne, if_neg (by omega)]
  exact h1

/-- C1: for every non-empty leaf list whose height `ceil(log2 n)` is below
`MAXHEIGHT` and every position `0 ≤ pos < n`, `gen_merkle_proof` succeeds and
the returned path has exactly `ceil(log2 n)` entries; in particular a
single-leaf list has height `0` and yields an empty path. -/
theorem c1_path_length (sha256 : List Nat → List Nat) (leaves : List (List Nat)) (pos : Nat)
    (hne : leaves ≠ []) (hh : Nat.clog 2 leaves.length < MAXHEIGHT)
    (hpos : pos < leaves.length) :
    (∃ path, gen_merkle_proof sha256 leaves (pos : Int) = Except.ok path ∧
      path.length = Nat.clog 2 leaves.length) ∧
    (∀ l : List Nat, Nat.clog 2 ([l] : List (List Nat)).length = 0 ∧
      gen_merkle_proof sha256 [l] 0 = Except.ok []) := by
  constructor
  · have hne0 : leaves.length ≠ 0 := fun h => hne (List.length_eq_zero.mp h)
    have hp : pos < 2 ^ Nat.clog 2 leaves.length :=
      lt_of_lt_of_le hpos (Nat.le_pow_clog one_lt_two _)
    obtain ⟨path, h1, h2, _⟩ := gen_spec sha256 leaves pos hne0 hh hp
    exact ⟨path, h1, h2⟩
  · intro l
    refine ⟨by rw [show ([l] : List (List Nat)).length = 1 from rfl, clog2_one], ?_⟩
    rw [gen_merkle_proof, show ([l] : List (List Nat)).length = 1 from rfl, clog2_one,
      if_neg (by omega : ¬ (1 = 0)), if_neg (by decide : ¬ (MAXHEIGHT ≤ 0))]
    rfl

theorem c1_path_length_witness :
    (([[1], [2]] : List (List Nat)) ≠ []) ∧
    (Nat.clog 2 ([[1], [2]] : List (List Nat)).length < MAXHEIGHT) ∧
    ((0 : Nat) < ([[1], [2]] : List (List Nat)).length) ∧
    ((∃ path, gen_merkle_proof hId [[1], [2]] ((0 : Nat) : Int) = Except.ok path ∧
        path.length = Nat.clog 2 ([[1], [2]] : List (List Nat)).length) ∧
      (∀ l : List Nat, Nat.clog 2 ([l] : List (List Nat)).length = 0 ∧
        gen_merkle_proof hId [l] 0 = Except.ok [])) :=
  have h1 : ([[1], [2]] : List (List Nat)) ≠ [] := by simp
  have h2 : Nat.clog 2 ([[1], [2]] : List (List Nat)).length < MAXHEIGHT := by
    rw [show ([[1], [2]] : List (List Nat)).length = 2 from rfl, clog2_two]
    decide
  have h3 : (0 : Nat) < ([[1], [2]] : List (List Nat)).length := by decide
  ⟨h1, h2, h3, c1_path_length hId [[1], [2]] 0 h1 h2 h3⟩

/-- C4: calling `gen_merkle_proof` on an empty leaf list fails before any leaf
is hashed: `math.log(0, 2)` raises `ValueError` (the spec files this failure
as `EmptyInput`).  The result is the same error for every digest function
`sha256` and every position, so no hashing work can have been performed. -/
theorem c4_empty_input (sha256 : List Nat → List Nat) (pos : Int) :
    gen_merkle_proof sha256 [] pos = Except.error PyErr.valueError := rfl

/-- C5: for every leaf list whose height `ceil(log2 n)` is at least
`MAXHEIGHT = 20`, `gen_merkle_proof` fails with the `assert` failure (the
spec files it as `CapacityExceeded`).  The result is the same error for every
digest function `sha256`, so the failure happens before any leaf is hashed. -/
theorem c5_capacity_exceeded (sha256 : List Nat → List Nat) (leaves : List (List Nat))
    (pos : Int) (hne : leaves.length ≠ 0) (hh : MAXHEIGHT ≤ Nat.clog 2 leaves.length) :
    gen_merkle_proof sha256 leaves pos = Except.error PyErr.assertionError := by
  rw [gen_merkle_proof, if_neg hne, if_pos hh]

theorem c5_capacity_exceeded_witness :
    ((List.replicate 524289 ([] : List Nat)).length ≠ 0) ∧
    (MAXHEIGHT ≤ Nat.clog 2 (List.replicate 524289 ([] : List Nat)).length) ∧
    gen_merkle_proof hId (List.replicate 524289 ([] : List Nat)) 0
      = Except.error PyErr.assertionError :=
  have h1 : (List.replicate 524289 ([] : List Nat)).length ≠ 0 := by
    rw [List.length_replicate]
    omega
  have h2 : MAXHEIGHT ≤ Nat.clog 2 (List.replicate 524289 ([] : List Nat)).length := by
    rw [List.length_replicate]
    exact clog2_big
  ⟨h1, h2, c5_capacity_exceeded hId (List.replicate 524289 []) 0 h1 h2⟩

/-- C7: `gen_merkle_proof` is deterministic.  The embedding is a pure function
of the digest function, the leaves and the position — the source reads no
global mutable state and uses no randomness — so equal inputs give equal
proofs. -/
theorem c7_deterministic (sha256 : List Nat → List Nat) (l1 l2 : List (List Nat))
    (p1 p2 : Int) (hl : l1 = l2) (hp : p1 = p2) :
    gen_merkle_proof sha256 l1 p1 = gen_merkle_proof sha256 l2 p2 := by
  rw [hl, hp]

theorem c7_deterministic_witness :
    (([[1], [2]] : List (List Nat)) = [[1], [2]]) ∧ ((0 : Int) = 0) ∧
    gen_merkle_proof hId [[1], [2]] 0 = gen_merkle_proof hId [[1], [2]] 0 :=
  ⟨rfl, rfl, c7_deterministic hId [[1], [2]] [[1], [2]] 0 0 rfl rfl⟩

/-- C9: for every non-empty leaf list with height below `MAXHEIGHT` and every
position `0 ≤ pos < 2 ^ height` — including the padding positions
`len(leaves) ≤ pos < 2 ^ height` — `gen_merkle_proof` completes without any
out-of-bounds access and returns a path of exactly `height` entries. -/
theorem c9_padding_positions_safe (sha256 : List Nat → List Nat)
    (leaves : List (List Nat)) (pos : Nat) (hne : leaves ≠ [])
    (hh : Nat.clog 2 leaves.length < MAXHEIGHT)
    (hpos : pos < 2 ^ Nat.clog 2 leaves.length) :
    ∃ path, gen_merkle_proof sha256 leaves (pos : Int) = Except.ok path ∧
      path.length = Nat.clog 2 leaves.length := by
  have hne0 : leaves.length ≠ 0 := fun h => hne (List.length_eq_zero.mp h)
  obtain ⟨path, h1, h2, _⟩ := gen_spec sha256 leaves pos hne0 hh hpos
  exact ⟨path, h1, h2⟩

theorem c9_padding_positions_safe_witness :
    (([[1], [2], [3]] : List (List Nat)) ≠ []) ∧
    (Nat.clog 2 ([[1], [2], [3]] : List (List Nat)).length < MAXHEIGHT) ∧
    ((3 : Nat) < 2 ^ Nat.clog 2 ([[1], [2], [3]] : List (List Nat)).length) ∧
    (∃ path, gen_merkle_proof hId [[1], [2], [3]] ((3 : Nat) : Int) = Except.ok path ∧
      path.length = Nat.clog 2 ([[1], [2], [3]] : List (List Nat)).length) :=
  have h1 : ([[1], [2], [3]] : List (List Nat)) ≠ [] := by simp
  have h2 : Nat.clog 2 ([[1], [2], [3]] : List (List Nat)).length < MAXHEIGHT := by
    rw [show ([[1], [2], [3]] : List (List Nat)).length = 3 from rfl, clog2_three]
    decide
  have h3 : (3 : Nat) < 2 ^ Nat.clog 2 ([[1], [2], [3]] : List (List Nat)).length := by
    rw [show ([[1], [2], [3]] : List (List Nat)).length = 3 from rfl, clog2_three]
    decide
  ⟨h1, h2, h3, c9_padding_positions_safe hId [[1], [2], [3]] 3 h1 h2 h3⟩

/-- C10: a negative position is not rejected: with the two-leaf list
`[[1], [2]]` and position `-1`, `gen_merkle_proof` completes without error and
returns a path with `height = 1` entries, because Python indexing lets the
negative sibling index `-2` wrap around to the front of the level. -/
theorem c10_negative_position_wraps :
    ∃ path, gen_merkle_proof hId [[1], [2]] (-1) = Except.ok path ∧
      path.length = Nat.clog 2 ([[1], [2]] : List (List Nat)).length ∧
      path = [hash_leaf hId [1]] := by
  have hps : paddedState hId [[1], [2]] = [hash_leaf hId [1], hash_leaf hId [2]] := by
    rw [paddedState, show ([[1], [2]] : List (List Nat)).length = 2 from rfl, clog2_two]
    rfl
  refine ⟨[hash_leaf hId [1]], ?_, ?_, rfl⟩
  · rw [gen_merkle_proof, show ([[1], [2]] : List (List Nat)).length = 2 from rfl, clog2_two,
      if_neg (by omega : ¬ (2 = 0)), if_neg (by decide : ¬ (MAXHEIGHT ≤ 1)), hps]
    rfl
  · rw [show ([[1], [2]] : List (List Nat)).length = 2 from rfl, clog2_two]
    rfl

/-- C2 counterexample: the claim says every padding entry is an all-zero
digest of the same fixed length (32 bytes) as a real digest.  In the source
the padding entry is `b"\x00"`, a single zero byte: with three leaves and a
digest function of output length 32, the padding entry at index 3 is `[0]`,
whose length is 1, not the 32 of a real digest. -/
theorem c2_padding_counterexample :
    (paddedState h32 [[1], [2], [3]])[3]? = some [0] ∧
    (([0] : List Nat)).length = 1 ∧
    (hash_leaf h32 [1]).length = 32 ∧
    ¬ (([0] : List Nat)).length = (hash_leaf h32 [1]).length := by
  have hps : paddedState h32 [[1], [2], [3]]
      = [hash_leaf h32 [1], hash_leaf h32 [2], hash_leaf h32 [3], [0]] := by
    rw [paddedState, show ([[1], [2], [3]] : List (List Nat)).length = 3 from rfl, clog2_three]
    rfl
  refine ⟨by rw [hps]; rfl, rfl, rfl, ?_⟩
  rw [show (([0] : List Nat)).length = 1 from rfl,
    show (hash_leaf h32 [1]).length = 32 from rfl]
  omega

/-- C2 amended: when `n` is not a power of two, `gen_merkle_proof` appends
exactly `2 ^ height - n` padding entries to the hashed-leaf level, but each
padding entry is the single byte string `b"\x00"` (length 1), not an all-zero
digest of the 32-byte length of a real digest: the padded level has length
`2 ^ height` and every entry at a padding index is `[0]`. -/
theorem c2_amended_padding (sha256 : List Nat → List Nat) (leaves : List (List Nat))
    (_hne : leaves.length ≠ 0) :
    (paddedState sha256 leaves).length = 2 ^ Nat.clog 2 leaves.length ∧
    ∀ i, leaves.length ≤ i → i < 2 ^ Nat.clog 2 leaves.length →
      (paddedState sha256 leaves)[i]? = some [0] := by
  have hle := Nat.le_pow_clog one_lt_two leaves.length
  constructor
  · simp only [paddedState, List.length_append, List.length_map, List.length_replicate]
    omega
  · intro i h1 h2
    rw [paddedState, List.getElem?_append_right (by simp only [List.length_map]; omega)]
    simp only [List.length_map]
    rw [List.getElem?_replicate, if_pos (by omega)]

theorem c2_amended_padding_witness :
    (([[1], [2], [3]] : List (List Nat)).length ≠ 0) ∧
    ((paddedState h32 [[1], [2], [3]]).length
        = 2 ^ Nat.clog 2 ([[1], [2], [3]] : List (List Nat)).length ∧
      ∀ i, ([[1], [2], [3]] : List (List Nat)).length ≤ i →
        i < 2 ^ Nat.clog 2 ([[1], [2], [3]] : List (List Nat)).length →
        (paddedState h32 [[1], [2], [3]])[i]? = some [0]) :=
  have h1 : ([[1], [2], [3]] : List (List Nat)).length ≠ 0 := by simp
  ⟨h1, c2_amended_padding h32 [[1], [2], [3]] h1⟩

/-- C3 counterexample: the claim says `build_proof([l], 5)` fails with an
index-out-of-range error.  In the source no position validation exists:
with a single leaf the height is 0, the loop body never runs, and
`gen_merkle_proof([[1]], 5)` returns the empty path successfully. -/
theorem c3_position_counterexample : gen_merkle_proof hId [[1]] 5 = Except.ok [] := by
  rw [gen_merkle_proof, show ([[1]] : List (List Nat)).length = 1 from rfl, clog2_one,
    if_neg (by omega : ¬ (1 = 0)), if_neg (by decide : ¬ (MAXHEIGHT ≤ 0))]
  rfl

/-- C3 amended: `gen_merkle_proof` performs no position validation.  For a
single-leaf list every position — in particular 5 — returns the empty path
successfully.  For a tree of height at least 1, a position at or beyond
`2 ^ height` raises a Python `IndexError` in the first loop iteration, which
is after all the leaves have been hashed, not before; positions inside
`[len(leaves), 2 ^ height)` succeed (see C9). -/
theorem c3_amended_no_position_validation (sha256 : List Nat → List Nat) (l : List Nat)
    (leaves : List (List Nat)) (pos : Int) (hne : leaves.length ≠ 0)
    (hh : Nat.clog 2 leaves.length < MAXHEIGHT)
    (hge : (2 : Int) ^ Nat.clog 2 leaves.length ≤ pos)
    (h1 : 1 ≤ Nat.clog 2 leaves.length) :
    gen_merkle_proof sha256 [l] pos = Except.ok [] ∧
    gen_merkle_proof sha256 leaves pos = Except.error PyErr.indexError := by
  constructor
  · rw [gen_merkle_proof, show ([l] : List (List Nat)).length = 1 from rfl, clog2_one,
      if_neg (by omega : ¬ (1 = 0)), if_neg (by decide : ¬ (MAXHEIGHT ≤ 0))]
    rfl
  · rw [gen_merkle_proof, if_neg hne, if_neg (by omega)]
    obtain ⟨k, hk⟩ : ∃ k, Nat.clog 2 leaves.length = k + 1 :=
      ⟨Nat.clog 2 leaves.length - 1, by omega⟩
    have hlen : (paddedState sha256 leaves).length = 2 ^ (k + 1) := by
      have hle := Nat.le_pow_clog one_lt_two leaves.length
      rw [hk] at hle
      simp only [paddedState, List.length_append, List.length_map, List.length_replicate, hk]
      omega
    have hsib : pyGet (paddedState sha256 leaves)
        (if pos % 2 = 0 then pos + 1 else pos - 1) = Except.error PyErr.indexError := by
      apply pyGet_ge
      rw [hlen]
      rw [hk] at hge
      have hcast : (((2 : Nat) ^ (k + 1) : Nat) : Int) = (2 : Int) ^ (k + 1) := by
        push_cast
        ring
      have heven : ((2 : Int) ^ (k + 1)) % 2 = 0 := by
        rw [pow_succ]
        exact Int.mul_emod_left _ _
      split
      · omega
      · omega
    rw [hk]
    simp only [proofLoop]
    rw [hsib]

theorem c3_amended_no_position_validation_witness :
    (([[1], [2]] : List (List Nat)).length ≠ 0) ∧
    (Nat.clog 2 ([[1], [2]] : List (List Nat)).length < MAXHEIGHT) ∧
    ((2 : Int) ^ Nat.clog 2 ([[1], [2]] : List (List Nat)).length ≤ 4) ∧
    (1 ≤ Nat.clog 2 ([[1], [2]] : List (List Nat)).length) ∧
    (gen_merkle_proof hId [[9]] 4 = Except.ok [] ∧
      gen_merkle_proof hId [[1], [2]] 4 = Except.error PyErr.indexError) :=
  have h0 : ([[1], [2]] : List (List Nat)).length = 2 := rfl
  have h1 : ([[1], [2]] : List (List Nat)).length ≠ 0 := by rw [h0]; omega
  have h2 : Nat.clog 2 ([[1], [2]] : List (List Nat)).length < MAXHEIGHT := by
    rw [h0, clog2_two]
    decide
  have h3 : (2 : Int) ^ Nat.clog 2 ([[1], [2]] : List (List Nat)).length ≤ 4 := by
    rw [h0, clog2_two]
    norm_num
  have h4 : 1 ≤ Nat.clog 2 ([[1], [2]] : List (List Nat)).length := by
    rw [h0, clog2_two]
  ⟨h1, h2, h3, h4, c3_amended_no_position_validation hId [9] [[1], [2]] 4 h1 h2 h3 h4⟩

/-- C6: on valid inputs the proof succeeds and, at each level `i` below the
height, the `i`-th path entry is the current level's element at index
`level_pos + 1` (for even `level_pos = pos / 2 ^ i`) or `level_pos - 1` (for
odd), where the levels arise from the padded leaf level by the pairwise fold;
and the pairwise fold combines every even-index element with its odd-index
successor via `hash_internal_node`, halving the (even) level length. -/
theorem c6_sibling_and_fold (sha256 : List Nat → List Nat) (leaves : List (List Nat))
    (pos : Nat) (hne : leaves ≠ []) (hh : Nat.clog 2 leaves.length < MAXHEIGHT)
    (hpos : pos < leaves.length) :
    (∃ path, gen_merkle_proof sha256 leaves (pos : Int) = Except.ok path ∧
      ∀ i, i < Nat.clog 2 leaves.length →
        path[i]? = (levelAt sha256 (paddedState sha256 leaves) i)[sibIndex (pos / 2 ^ i)]?) ∧
    (∀ l : List (List Nat), 2 ∣ l.length →
      (combineLevel sha256 l).length = l.length / 2 ∧
      ∀ k, k < l.length / 2 →
        (combineLevel sha256 l)[k]? =
          some (hash_internal_node sha256 (l.getD (2 * k) []) (l.getD (2 * k + 1) []))) := by
  constructor
  · have hne0 : leaves.length ≠ 0 := fun h => hne (List.length_eq_zero.mp h)
    have hp : pos < 2 ^ Nat.clog 2 leaves.length :=
      lt_of_lt_of_le hpos (Nat.le_pow_clog one_lt_two _)
    obtain ⟨path, h1, _, h3⟩ := gen_spec sha256 leaves pos hne0 hh hp
    exact ⟨path, h1, h3⟩
  · intro l hdvd
    refine ⟨combineLevel_length sha256 l, ?_⟩
    intro k hk
    have h1 : 2 * k < l.length := by omega
    have h2 : 2 * k + 1 < l.length := by omega
    rw [combineLevel, List.getElem?_zipWith, evens_getElem?, odds_getElem?,
      List.getElem?_eq_getElem h1, List.getElem?_eq_getElem h2]
    simp [List.getD_eq_getElem?_getD, List.getElem?_eq_getElem, h1, h2]

theorem c6_sibling_and_fold_witness :
    (([[1], [2]] : List (List Nat)) ≠ []) ∧
    (Nat.clog 2 ([[1], [2]] : List (List Nat)).length < MAXHEIGHT) ∧
    ((0 : Nat) < ([[1], [2]] : List (List Nat)).length) ∧
    ((∃ path, gen_merkle_proof hId [[1], [2]] ((0 : Nat) : Int) = Except.ok path ∧
        ∀ i, i < Nat.clog 2 ([[1], [2]] : List (List Nat)).length →
          path[i]? = (levelAt hId (paddedState hId [[1], [2]]) i)[sibIndex (0 / 2 ^ i)]?) ∧
      (∀ l : List (List Nat), 2 ∣ l.length →
        (combineLevel hId l).length = l.length / 2 ∧
        ∀ k, k < l.length / 2 →
          (combineLevel hId l)[k]? =
            some (hash_internal_node hId (l.getD (2 * k) []) (l.getD (2 * k + 1) [])))) :=
  have h1 : ([[1], [2]] : List (List Nat)) ≠ [] := by simp
  have h2 : Nat.clog 2 ([[1], [2]] : List (List Nat)).length < MAXHEIGHT := by
    rw [show ([[1], [2]] : List (List Nat)).length = 2 from rfl, clog2_two]
    decide
  have h3 : (0 : Nat) < ([[1], [2]] : List (List Nat)).length := by decide
  ⟨h1, h2, h3, c6_sibling_and_fold hId [[1], [2]] 0 h1 h2 h3⟩

/-- C8: domain separation.  The tagged pre-images `b"leaf:" || x` and
`b"node:" || x || x` differ for every byte sequence `x` (their first bytes are
108 and 110), so under any digest function with no collisions — the standard
idealisation of SHA-256 — `hash_leaf x` differs from
`hash_internal_node x x`. -/
theorem c8_domain_separation (sha256 : List Nat → List Nat) (x : List Nat)
    (hinj : Function.Injective sha256) :
    leafTag ++ x ≠ nodeTag ++ x ++ x ∧
    hash_leaf sha256 x ≠ hash_internal_node sha256 x x := by
  have htag : leafTag ++ x ≠ nodeTag ++ x ++ x := by
    intro h
    have hhead := congrArg (fun l => l.headD 0) h
    simp [leafTag, nodeTag] at hhead
  exact ⟨htag, fun h => htag (hinj h)⟩

theorem c8_domain_separation_witness :
    Function.Injective hId ∧
    (leafTag ++ [7] ≠ nodeTag ++ [7] ++ [7] ∧
      hash_leaf hId [7] ≠ hash_internal_node hId [7] [7]) :=
  have hinj : Function.Injective hId := fun _ _ h => h
  ⟨hinj, c8_domain_separation hId [7] hinj⟩
